import Mathlib

/-!
Verification of the meal-planning core of the ai-nourish-hub repository:
the plan generator with its deterministic fallback
(supabase/migrations/20250804040853_….sql, `generateFallbackMealPlan` and the
`serve` handler), the client-side generation wrapper
(src/components/MealPlanViewer.tsx), week resolution
(src/components/Dashboard.tsx `getStartOfWeek`, GroceryList revision
`getCurrentWeekRange`), grocery aggregation and `clearPurchased`
(src/components/GroceryList.tsx), and reminder scheduling
(src/components/MealCalendar.tsx `generateWeeklyReminders`).

Dates and timestamps are modelled in UTC: a timestamp is an `Int` count of
milliseconds since the epoch and a calendar date is its day index
`t / 86400000` (1970-01-01, a Thursday, is day 0).  JavaScript string
primitives used by the source (`toLowerCase`, `split(', ')`, `split(':')`,
`join(', ')`, `parseInt`, the `x || default` idiom) are embedded as
structurally recursive functions so that all definitions evaluate by kernel
reduction.
-/

/-- JavaScript `String.prototype.toLowerCase` on one character
(ASCII range, which is all the source ever lowercases). -/
def jsLowerChar (c : Char) : Char :=
  if 'A' ≤ c ∧ c ≤ 'Z' then Char.ofNat (c.toNat + 32) else c

/-- JavaScript `s.toLowerCase()`. -/
def jsToLower (s : String) : String :=
  ⟨s.data.map jsLowerChar⟩

/-- Worker for `s.split(', ')`: scans left to right one character at a
time, cutting at each occurrence of the two-character separator `", "`.
`acc` holds the current segment reversed; `skip` is set just after a cut,
while the separator's second character is still ahead. -/
def splitCommaSpaceAux : List Char → List Char → Bool → List (List Char)
  | [], acc, _ => [acc.reverse]
  | _ :: tail, acc, true => splitCommaSpaceAux tail acc false
  | c :: tail, acc, false =>
    if c = ',' ∧ tail.head? = some ' ' then
      acc.reverse :: splitCommaSpaceAux tail [] true
    else splitCommaSpaceAux tail (c :: acc) false

/-- JavaScript `s.split(', ')`. -/
def jsSplitCommaSpace (s : String) : List String :=
  (splitCommaSpaceAux s.data [] false).map (fun l => ⟨l⟩)

/-- Worker for `s.split(':')` (single-character separator). -/
def splitColonAux : List Char → List Char → List (List Char)
  | [], acc => [acc.reverse]
  | c :: rest, acc =>
    if c = ':' then acc.reverse :: splitColonAux rest []
    else splitColonAux rest (c :: acc)

/-- JavaScript `s.split(':')`. -/
def jsSplitColon (s : String) : List String :=
  (splitColonAux s.data []).map (fun l => ⟨l⟩)

/-- JavaScript `array.join(', ')` on an array of strings. -/
def jsJoinCommaSpace : List String → String
  | [] => ""
  | x :: rest =>
    match rest with
    | [] => x
    | _ :: _ => x ++ ", " ++ jsJoinCommaSpace rest

/-- Leading-digits value for `parseInt`: consumes decimal digits from the
front, accumulating into `n`, and stops at the first non-digit. -/
def jsParseIntAux : List Char → Nat → Nat
  | [], n => n
  | c :: rest, n =>
    if '0' ≤ c ∧ c ≤ '9' then jsParseIntAux rest (n * 10 + (c.toNat - '0'.toNat))
    else n

/-- JavaScript `parseInt(s, 10)` on the well-formed numeric strings the
source feeds it ("08", "00", "12" …); a string with no leading digit is
read as 0. -/
def jsParseInt (s : String) : Nat :=
  jsParseIntAux s.data 0

/-- The JavaScript `x || dflt` idiom on a possibly-null string: `null`,
`undefined` and the empty string are falsy, so they yield the default. -/
def jsOrDefault (x : Option String) (dflt : String) : String :=
  match x with
  | none => dflt
  | some s => if s = "" then dflt else s

/-- Milliseconds per day. -/
def msPerDay : Int := 86400000

/-- Milliseconds per hour. -/
def msPerHour : Int := 3600000

/-- Milliseconds per minute. -/
def msPerMinute : Int := 60000

/-- Day index (days since the epoch) of a millisecond timestamp; what
`new Date(t).toISOString().split('T')[0]` denotes in the UTC model. -/
def dayIndexOf (t : Int) : Int :=
  t / msPerDay

/-- JavaScript `date.getDay()` in the UTC model: 0 = Sunday … 6 = Saturday.
Day 0 of the epoch was a Thursday. -/
def jsGetDay (t : Int) : Int :=
  (t / msPerDay + 4) % 7

/-- JavaScript `date.setHours(0, 0, 0, 0)` in the UTC model: midnight of
the timestamp's day. -/
def midnightOf (t : Int) : Int :=
  t / msPerDay * msPerDay

/-- A meal of a plan payload: `{ type, name, recipe, ingredients }`. -/
structure Meal where
  type : String
  name : String
  recipe : String
  ingredients : List String
deriving DecidableEq

/-- A day of a plan payload: `{ day, date, meals }`; `date` is kept as a
day index. -/
structure PlanDay where
  day : Nat
  date : Int
  meals : List Meal
deriving DecidableEq

/-- A plan payload: `{ days: [...] }`. -/
structure PlanData where
  days : List PlanDay
deriving DecidableEq

/-- A row of `diet_preferences` as the generator consumes it. -/
structure Preferences where
  diet_type : String
  allergies : List String
  foods_to_avoid : List String
  preferred_cuisines : List String
  meals_per_day : Nat
  total_days : Nat
  include_snacks : Bool
  meal_times : List (String × String)
  reminder_tone : String
  reminder_enabled : Bool
deriving DecidableEq

/-- The ordered meal-type list of the fallback generator. -/
def mealTypes : List String :=
  ["Breakfast", "Lunch", "Dinner", "Snack"]

/-- `generateFallbackMealPlan` of the generate-meal-plan edge function:
`total_days` days numbered from 1, dated `today + i` (from
`new Date(Date.now() + i * 24 * 60 * 60 * 1000)`), each with
`meals_per_day` meals cycling through `mealTypes` by `j % mealTypes.length`. -/
def generateFallbackMealPlan (preferences : Preferences) (todayIdx : Int) : PlanData :=
  { days := (List.range preferences.total_days).map fun i =>
      { day := i + 1
        date := todayIdx + i
        meals := (List.range preferences.meals_per_day).map fun j =>
          { type := mealTypes.getD (j % mealTypes.length) ""
            name := "Sample " ++ mealTypes.getD (j % mealTypes.length) ""
            recipe := "A delicious " ++ preferences.diet_type ++ " " ++
              jsToLower (mealTypes.getD (j % mealTypes.length) "") ++
              " with healthy ingredients."
            ingredients := ["Sample ingredient 1", "Sample ingredient 2"] } } }

/-- A row of `meal_plans` as the edge function inserts it. -/
structure MealPlanRow where
  week_start_date : Int
  plan_data : PlanData
  meals_per_day : Nat
  total_days : Nat
deriving DecidableEq

/-- The plan-data assembly of the `serve` handler: the AI payload when the
backend call parsed (`aiResult = some p`), and the deterministic fallback
when the call failed, timed out or its payload did not parse
(`aiResult = none`), followed by the `meal_plans` insert whose
`week_start_date` is `new Date().toISOString().split('T')[0]`, i.e. the
current date. -/
def serveGenerate (preferences : Preferences) (aiResult : Option PlanData)
    (todayIdx : Int) : MealPlanRow × PlanData :=
  let planData :=
    match aiResult with
    | some p => p
    | none => generateFallbackMealPlan preferences todayIdx
  ({ week_start_date := todayIdx
     plan_data := planData
     meals_per_day := preferences.meals_per_day
     total_days := preferences.total_days }, planData)

/-- The HTTP response of the edge function. -/
inductive ServeResponse where
  | ok (mealPlan : MealPlanRow) (planData : PlanData)
  | err (status : Nat) (msg : String)
deriving DecidableEq

/-- The `serve` handler end to end: AI failure is recovered into the
fallback plan; only a failed `meal_plans` insert (`saveOk = false`) aborts
with a 500 response. -/
def serveHandler (preferences : Preferences) (aiResult : Option PlanData)
    (todayIdx : Int) (saveOk : Bool) : ServeResponse :=
  if saveOk then
    ServeResponse.ok (serveGenerate preferences aiResult todayIdx).1
      (serveGenerate preferences aiResult todayIdx).2
  else ServeResponse.err 500 "Failed to save meal plan"

/-- Outcome of the client's `Promise.race` around
`supabase.functions.invoke('generate-meal-plan')` in MealPlanViewer.tsx:
the 20-second timer fired, the invoke returned an error, or a response
arrived. -/
inductive EdgeCallOutcome where
  | timeout
  | invokeError (msg : String)
  | response (r : ServeResponse)
deriving DecidableEq

/-- What the MealPlanViewer `generateMealPlan` handler surfaces to the
user: the plan, or an error toast. -/
inductive ClientOutcome where
  | planShown (planData : PlanData) (mealPlan : MealPlanRow)
  | errorShown (msg : String)
deriving DecidableEq

/-- The client `generateMealPlan` dispatch (MealPlanViewer.tsx lines
58–104): a timeout or invoke error is re-thrown and caught by the outer
handler, which shows an error toast; a success response shows the plan. -/
def clientGenerate (outcome : EdgeCallOutcome) : ClientOutcome :=
  match outcome with
  | EdgeCallOutcome.timeout =>
    ClientOutcome.errorShown "Failed to generate meal plan: Request timed out after 20s"
  | EdgeCallOutcome.invokeError m =>
    ClientOutcome.errorShown ("Failed to generate meal plan: " ++ m)
  | EdgeCallOutcome.response (ServeResponse.err _ m) =>
    ClientOutcome.errorShown ("Failed to generate meal plan: " ++ m)
  | EdgeCallOutcome.response (ServeResponse.ok mp pd) =>
    ClientOutcome.planShown pd mp

/-- `getStartOfWeek` of Dashboard.tsx (Sunday convention):
`d.setHours(0,0,0,0); d.setDate(d.getDate() - d.getDay())`. -/
def getStartOfWeek (t : Int) : Int :=
  midnightOf t - jsGetDay t * msPerDay

/-- `getCurrentWeekRange` of the GroceryList revision (Monday convention):
`diffToMonday = day === 0 ? -6 : 1 - day`, week start at midnight of that
day, week end six days later at 23:59:59.999. -/
def getCurrentWeekRange (t : Int) : Int × Int :=
  let day := jsGetDay t
  let diffToMonday : Int := if day = 0 then -6 else 1 - day
  let weekStart := midnightOf t + diffToMonday * msPerDay
  let weekEnd := weekStart + 6 * msPerDay + (23 * msPerHour + 59 * msPerMinute + 59 * 1000 + 999)
  (weekStart, weekEnd)

/-- The week-membership test of `loadCurrentWeekGroceryItems`:
`created >= weekStart && created <= weekEnd`. -/
def createdInRange (created : Int) (range : Int × Int) : Bool :=
  decide (range.1 ≤ created) && decide (created ≤ range.2)

/-- `startOfWeek(new Date(), { weekStartsOn: 1 })` of date-fns as
MealCalendar.tsx uses it: midnight of the most recent Monday. -/
def dateFnsStartOfWeekMonday (t : Int) : Int :=
  midnightOf t - (jsGetDay t + 6) % 7 * msPerDay

/-- A row of `grocery_lists` as the read path sees it. -/
structure GroceryRow where
  id : String
  user_id : String
  week_start_date : Int
  item_name : String
  quantity : Option String
  is_purchased : Bool
  notes : Option String
deriving DecidableEq

/-- The aggregated presentation item the grocery views render. -/
structure DisplayItem where
  id : String
  item_name : String
  quantity : String
  is_purchased : Bool
  notes : Option String
deriving DecidableEq

/-- The duplicate branch of the grocery `reduce`:
`quantities = acc[key].quantity.split(', '); if (!quantities.includes(item.quantity))
quantities.push(item.quantity); acc[key].quantity = quantities.join(', ')`.
A null quantity is never a member of a string array, and `join` renders a
pushed null as the empty string. -/
def combineQuantity (accq : String) (q : Option String) : String :=
  let quantities := jsSplitCommaSpace accq
  match q with
  | some s => if s ∈ quantities then accq else jsJoinCommaSpace (quantities ++ [s])
  | none => jsJoinCommaSpace (quantities ++ [""])

/-- The first-occurrence branch of the grocery `reduce`: the row's own
`id`, `item_name`, `is_purchased` and `notes`, with
`quantity: item.quantity || '1 unit'`. -/
def displayOfRow (r : GroceryRow) : DisplayItem :=
  { id := r.id
    item_name := r.item_name
    quantity := jsOrDefault r.quantity "1 unit"
    is_purchased := r.is_purchased
    notes := r.notes }

/-- One step of the grocery `reduce` over an insertion-ordered association
list keyed by `item_name.toLowerCase()` (JavaScript object keys enumerate
in insertion order for these names). -/
def aggInsert (acc : List (String × DisplayItem)) (r : GroceryRow) :
    List (String × DisplayItem) :=
  let key := jsToLower r.item_name
  if acc.any (fun p => p.1 == key) then
    acc.map fun p =>
      if p.1 = key then (p.1, { p.2 with quantity := combineQuantity p.2.quantity r.quantity })
      else p
  else acc ++ [(key, displayOfRow r)]

/-- The grocery read-path aggregation of `loadGroceryItems`
(GroceryList.tsx lines 93–114): `data.reduce(...)` followed by
`Object.values(groupedItems)`. -/
def aggregate (rows : List GroceryRow) : List DisplayItem :=
  (rows.foldl aggInsert []).map (fun p => p.2)

/-- `clearPurchased`: `delete().eq('user_id', uid).eq('is_purchased', true)`
on `grocery_lists` — the rows of that user marked purchased go, everything
else stays. -/
def clearPurchased (uid : String) (table : List GroceryRow) : List GroceryRow :=
  table.filter fun r => !(r.user_id == uid && r.is_purchased)

/-- Spec-side model of "the ordered, de-duplicated list of distinct
quantity strings seen in the group": append a value only when unseen. -/
def seenInsert (ks : List String) (k : String) : List String :=
  if k ∈ ks then ks else ks ++ [k]

/-- Spec-side model: first-seen-order deduplication of a list of strings
(§4.3's read-path contract). -/
def dedupFirstSeen (l : List String) : List String :=
  l.foldl seenInsert []

/-- A row of `notifications` as the scheduler inserts it (owner and plan
reference elided: every row of one batch shares them). -/
structure NotificationRow where
  message : String
  scheduled_time : Int
  is_sent : Bool
deriving DecidableEq

/-- `"HH:MM"` as milliseconds after midnight, per
`const [hours, minutes] = mealTime.split(':')` and
`setHours(parseInt(hours), parseInt(minutes), 0, 0)`. -/
def timeOfDayMs (s : String) : Int :=
  let parts := jsSplitColon s
  (jsParseInt (parts.getD 0 "") : Int) * msPerHour +
    (jsParseInt (parts.getD 1 "") : Int) * msPerMinute

/-- Prep-reminder text by reminder tone (MealCalendar.tsx switch). -/
def prepMessageFor (tone : String) (meal : Meal) : String :=
  if tone = "funny" then
    "🍳 Time to channel your inner chef! Get ready to make " ++ meal.name
  else if tone = "gentle" then
    "🌿 Gentle reminder: It\x27s time to start preparing " ++ meal.name
  else
    "💪 Fuel your body! Time to prep " ++ meal.name

/-- Meal-reminder text by reminder tone (MealCalendar.tsx switch). -/
def mealMessageFor (tone : String) (meal : Meal) : String :=
  if tone = "funny" then
    "🍽️ Your stomach is calling - " ++ meal.name ++ " is ready to be devoured!"
  else if tone = "gentle" then
    "🍃 Time for your " ++ jsToLower meal.type ++ ". Enjoy your " ++ meal.name
  else
    "🌟 Your day gets better when you eat well. It\x27s time for " ++ meal.name ++ "!"

/-- The weekly regenerate-reminder text. -/
def regenMessage : String :=
  "🗓️ Ready for your next week\x27s plan? Time to regenerate your meal plan!"

/-- The two notifications of one `(day, meal)` pair:
`mealTime = mealTimes[meal.type.toLowerCase()] || '12:00'`; the meal
reminder at `addDays(weekStart, day.day - 1)` with that time of day set,
and the prep reminder one hour earlier, pushed in prep-then-meal order. -/
def mealNotifications (tone : String) (mealTimes : List (String × String))
    (weekStart : Int) (day : PlanDay) (meal : Meal) : List NotificationRow :=
  let mealTime := jsOrDefault (mealTimes.lookup (jsToLower meal.type)) "12:00"
  let dayDate := weekStart + ((day.day : Int) - 1) * msPerDay
  let scheduledTime := midnightOf dayDate + timeOfDayMs mealTime
  let prepTime := scheduledTime - msPerHour
  [{ message := prepMessageFor tone meal, scheduled_time := prepTime, is_sent := false },
   { message := mealMessageFor tone meal, scheduled_time := scheduledTime, is_sent := false }]

/-- `generateWeeklyReminders` (MealCalendar.tsx lines 80–149): two
notifications per `(day, meal)` pair anchored on the Monday-start week of
`now`, plus the regenerate reminder on that week's Sunday
(`addDays(weekStart, 6)`) at 10:00. -/
def generateWeeklyReminders (planDays : List PlanDay)
    (mealTimes : List (String × String)) (tone : String) (now : Int) :
    List NotificationRow :=
  let weekStart := dateFnsStartOfWeekMonday now
  (planDays.flatMap fun day =>
    day.meals.flatMap fun meal => mealNotifications tone mealTimes weekStart day meal) ++
  [{ message := regenMessage
     scheduled_time := weekStart + 6 * msPerDay + 10 * msPerHour
     is_sent := false }]

/-- Placeholder day used by `List.getD`-phrased statements. -/
def emptyPlanDay : PlanDay :=
  { day := 0, date := 0, meals := [] }

/-- Placeholder meal used by `List.getD`-phrased statements. -/
def emptyMeal : Meal :=
  { type := "", name := "", recipe := "", ingredients := [] }

/-- Placeholder notification used by `List.getD`-phrased statements. -/
def emptyNotification : NotificationRow :=
  { message := "", scheduled_time := 0, is_sent := false }

/-- A concrete preferences value for counterexamples and witnesses. -/
def samplePrefs : Preferences :=
  { diet_type := "vegan"
    allergies := ["nuts"]
    foods_to_avoid := []
    preferred_cuisines := []
    meals_per_day := 3
    total_days := 7
    include_snacks := false
    meal_times := [("breakfast", "08:00"), ("lunch", "12:00"), ("dinner", "18:00")]
    reminder_tone := "motivational"
    reminder_enabled := true }

/-- A preferences value whose meal count is not divisible by the four meal
types, to exercise the modulo cycling. -/
def samplePrefsFive : Preferences :=
  { samplePrefs with meals_per_day := 5, total_days := 2 }

/-- A concrete meal for counterexamples and witnesses. -/
def sampleMeal : Meal :=
  { type := "Breakfast", name := "Oats", recipe := "r", ingredients := [] }

/-- A concrete plan day, dated epoch day 12 (a Tuesday), for
counterexamples and witnesses. -/
def samplePlanDay : PlanDay :=
  { day := 1, date := 12, meals := [sampleMeal] }

/-- The fallback day list has one entry per `List.range` index. -/
lemma fallback_days_getD (preferences : Preferences) (todayIdx : Int) (i : Nat)
    (hi : i < preferences.total_days) :
    (generateFallbackMealPlan preferences todayIdx).days.getD i emptyPlanDay =
      { day := i + 1
        date := todayIdx + i
        meals := (List.range preferences.meals_per_day).map fun j =>
          { type := mealTypes.getD (j % mealTypes.length) ""
            name := "Sample " ++ mealTypes.getD (j % mealTypes.length) ""
            recipe := "A delicious " ++ preferences.diet_type ++ " " ++
              jsToLower (mealTypes.getD (j % mealTypes.length) "") ++
              " with healthy ingredients."
            ingredients := ["Sample ingredient 1", "Sample ingredient 2"] } } := by
  have hlen : i < ((generateFallbackMealPlan preferences todayIdx).days).length := by
    simpa [generateFallbackMealPlan] using hi
  rw [List.getD_eq_getElem _ _ hlen]
  simp [generateFallbackMealPlan]

/-- C6: both week resolvers meet the Week Resolver contract: the Sunday
resolver `getStartOfWeek` and the Monday resolver of `getCurrentWeekRange`
return a midnight-normalized date, falling on their respective week-start
day, at most six days before the reference date; and the range test of
`loadCurrentWeekGroceryItems` accepts a timestamp exactly when
`weekStart ≤ ts < weekStart + 7 days`. -/
theorem week_resolver_contracts (t ts : Int) :
    getStartOfWeek t % msPerDay = 0 ∧
    jsGetDay (getStartOfWeek t) = 0 ∧
    getStartOfWeek t ≤ t ∧
    t - getStartOfWeek t < 7 * msPerDay ∧
    (getCurrentWeekRange t).1 % msPerDay = 0 ∧
    jsGetDay (getCurrentWeekRange t).1 = 1 ∧
    (getCurrentWeekRange t).1 ≤ t ∧
    t - (getCurrentWeekRange t).1 < 7 * msPerDay ∧
    (createdInRange ts (getCurrentWeekRange t) = true ↔
      (getCurrentWeekRange t).1 ≤ ts ∧ ts < (getCurrentWeekRange t).1 + 7 * msPerDay) := by
  simp only [getStartOfWeek, getCurrentWeekRange, createdInRange, midnightOf, jsGetDay,
    msPerDay, msPerHour, msPerMinute, Bool.and_eq_true, decide_eq_true_eq]
  split <;> omega

/-- C9: `clearPurchased uid` removes exactly the rows of user `uid` with
`is_purchased = true`: membership in the result is membership in the table
minus those rows, the result is a sublist of the table (rows are untouched,
just removed), and both the other users' rows and the user's unpurchased
rows are preserved verbatim. -/
theorem clear_purchased_frame (uid : String) (table : List GroceryRow) :
    (∀ r, r ∈ clearPurchased uid table ↔
      r ∈ table ∧ ¬(r.user_id = uid ∧ r.is_purchased = true)) ∧
    (clearPurchased uid table).Sublist table ∧
    (clearPurchased uid table).filter (fun r => !(r.user_id == uid)) =
      table.filter (fun r => !(r.user_id == uid)) ∧
    (clearPurchased uid table).filter (fun r => r.user_id == uid && !r.is_purchased) =
      table.filter (fun r => r.user_id == uid && !r.is_purchased) := by
  refine ⟨fun r => ?_, List.filter_sublist _, ?_, ?_⟩
  · cases hp : r.is_purchased <;> simp [clearPurchased, List.mem_filter, hp]
  · rw [clearPurchased, List.filter_filter]
    apply List.filter_congr
    intro r _
    cases hu : r.user_id == uid <;> simp [hu]
  · rw [clearPurchased, List.filter_filter]
    apply List.filter_congr
    intro r _
    cases hu : r.user_id == uid <;> cases hp : r.is_purchased <;> simp [hu, hp]

/-- C1: when the backend call fails, times out or its payload does not
parse (`aiResult = none`), the generated plan is the deterministic
fallback: exactly `total_days` days numbered 1..N, each with exactly
`meals_per_day` meals whose types cycle through
[Breakfast, Lunch, Dinner, Snack] by `j % 4`, named `"Sample {type}"`,
with the generic recipe string mentioning `diet_type` and the meal type
and the fixed two-entry ingredient list. -/
theorem fallback_plan_shape_of_backend_failure (preferences : Preferences)
    (todayIdx : Int) (i j : Nat) (hi : i < preferences.total_days)
    (hj : j < preferences.meals_per_day) :
    (serveGenerate preferences none todayIdx).2.days.length = preferences.total_days ∧
    ((serveGenerate preferences none todayIdx).2.days.getD i emptyPlanDay).day = i + 1 ∧
    ((serveGenerate preferences none todayIdx).2.days.getD i emptyPlanDay).meals.length =
      preferences.meals_per_day ∧
    ((serveGenerate preferences none todayIdx).2.days.getD i emptyPlanDay).meals.getD j emptyMeal =
      { type := mealTypes.getD (j % 4) ""
        name := "Sample " ++ mealTypes.getD (j % 4) ""
        recipe := "A delicious " ++ preferences.diet_type ++ " " ++
          jsToLower (mealTypes.getD (j % 4) "") ++ " with healthy ingredients."
        ingredients := ["Sample ingredient 1", "Sample ingredient 2"] } := by
  have hmt : mealTypes.length = 4 := rfl
  have hpd : (serveGenerate preferences none todayIdx).2 =
      generateFallbackMealPlan preferences todayIdx := rfl
  rw [hpd, fallback_days_getD preferences todayIdx i hi]
  refine ⟨by simp [generateFallbackMealPlan], rfl, by simp, ?_⟩
  have hj2 : j < ((List.range preferences.meals_per_day).map fun j =>
      ({ type := mealTypes.getD (j % mealTypes.length) ""
         name := "Sample " ++ mealTypes.getD (j % mealTypes.length) ""
         recipe := "A delicious " ++ preferences.diet_type ++ " " ++
           jsToLower (mealTypes.getD (j % mealTypes.length) "") ++
           " with healthy ingredients."
         ingredients := ["Sample ingredient 1", "Sample ingredient 2"] } : Meal)).length := by
    simpa using hj
  rw [List.getD_eq_getElem _ _ hj2]
  simp [hmt]

/-- C1 witness: the fallback shape at concrete preferences with five meals
per day (day 2, meal index 4, which wraps around to Breakfast). -/
theorem fallback_plan_shape_witness :
    (serveGenerate samplePrefsFive none 0).2.days.length = samplePrefsFive.total_days ∧
    ((serveGenerate samplePrefsFive none 0).2.days.getD 1 emptyPlanDay).day = 1 + 1 ∧
    ((serveGenerate samplePrefsFive none 0).2.days.getD 1 emptyPlanDay).meals.length =
      samplePrefsFive.meals_per_day ∧
    ((serveGenerate samplePrefsFive none 0).2.days.getD 1 emptyPlanDay).meals.getD 4 emptyMeal =
      { type := mealTypes.getD (4 % 4) ""
        name := "Sample " ++ mealTypes.getD (4 % 4) ""
        recipe := "A delicious " ++ samplePrefsFive.diet_type ++ " " ++
          jsToLower (mealTypes.getD (4 % 4) "") ++ " with healthy ingredients."
        ingredients := ["Sample ingredient 1", "Sample ingredient 2"] } :=
  fallback_plan_shape_of_backend_failure samplePrefsFive 0 1 4 (by decide) (by decide)

/-- C2 counterexample: on a Tuesday (epoch day 12), the persisted
`week_start_date` is day 12 itself, which is neither the Sunday-resolver
value (day 10) nor the Monday-resolver value (day 11); and on the AI path
the persisted days keep the payload's numbering, here a first day numbered
5 rather than 1. -/
theorem week_start_not_resolver_counterexample :
    ((serveGenerate samplePrefs none (dayIndexOf (12 * msPerDay + 3600000))).1.week_start_date =
      dayIndexOf (12 * msPerDay + 3600000)) ∧
    dayIndexOf (getStartOfWeek (12 * msPerDay + 3600000)) ≠
      (serveGenerate samplePrefs none (dayIndexOf (12 * msPerDay + 3600000))).1.week_start_date ∧
    dayIndexOf (getCurrentWeekRange (12 * msPerDay + 3600000)).1 ≠
      (serveGenerate samplePrefs none (dayIndexOf (12 * msPerDay + 3600000))).1.week_start_date ∧
    ((serveGenerate samplePrefs (some { days := [{ day := 5, date := 99, meals := [] }] })
        (dayIndexOf (12 * msPerDay + 3600000))).1.plan_data.days.getD 0 emptyPlanDay).day ≠ 1 := by
  decide

/-- C2 amended: the persisted plan's `week_start_date` is the current
date itself (not a start-of-week value); an AI payload is persisted
verbatim; and on the fallback path the days are numbered 1..N and dated
`today, today+1, …`, i.e. `week_start_date + (day - 1)`. -/
theorem week_start_is_today_amended (preferences : Preferences)
    (aiResult : Option PlanData) (todayIdx : Int) :
    ((serveGenerate preferences aiResult todayIdx).1.week_start_date = todayIdx) ∧
    (∀ p, aiResult = some p →
      (serveGenerate preferences aiResult todayIdx).1.plan_data = p) ∧
    (aiResult = none → ∀ i, i < preferences.total_days →
      ((serveGenerate preferences aiResult todayIdx).1.plan_data.days.getD i emptyPlanDay).day =
        i + 1 ∧
      ((serveGenerate preferences aiResult todayIdx).1.plan_data.days.getD i emptyPlanDay).date =
        todayIdx + i) := by
  refine ⟨by cases aiResult <;> rfl, fun p hp => by subst hp; rfl, ?_⟩
  rintro rfl i hi
  have hpd : (serveGenerate preferences none todayIdx).1.plan_data =
      generateFallbackMealPlan preferences todayIdx := rfl
  rw [hpd, fallback_days_getD preferences todayIdx i hi]
  exact ⟨rfl, rfl⟩

/-- C3 counterexample: when the client's 20-second race fires, the user is
shown an error toast — the timeout is surfaced, and no fallback plan
reaches the caller. -/
theorem timeout_error_surfaced_counterexample :
    clientGenerate EdgeCallOutcome.timeout =
      ClientOutcome.errorShown "Failed to generate meal plan: Request timed out after 20s" :=
  rfl

/-- C3 amended: a failure of the edge function's own backend call
(`aiResult = none`: fetch error, non-OK status or unparsable payload) is
recovered server-side into the fallback plan and is never surfaced — the
client receives a success response and shows the plan; only the client-side
20-second timeout (and invoke errors) surface an error. -/
theorem backend_failure_recovered_amended (preferences : Preferences) (todayIdx : Int) :
    clientGenerate (EdgeCallOutcome.response (serveHandler preferences none todayIdx true)) =
      ClientOutcome.planShown (generateFallbackMealPlan preferences todayIdx)
        { week_start_date := todayIdx
          plan_data := generateFallbackMealPlan preferences todayIdx
          meals_per_day := preferences.meals_per_day
          total_days := preferences.total_days } := by
  rfl


/-- Length of a `flatMap` whose pieces all have the same length. -/
lemma flatMap_length_of_mem {α β : Type} {f : α → List β} {l : List α} {k : Nat}
    (h : ∀ x ∈ l, (f x).length = k) : (l.flatMap f).length = k * l.length := by
  induction l with
  | nil => simp
  | cons a as ih =>
    simp only [List.flatMap_cons, List.length_append, h a (List.mem_cons_self a as),
      ih (fun x hx => h x (List.mem_cons_of_mem a hx)), List.length_cons]
    ring

/-- Adding whole days to the Monday week start stays midnight-normalized,
so the scheduler's `setHours` only adds the time of day. -/
lemma midnight_of_weekStart_add (t k : Int) :
    midnightOf (dateFnsStartOfWeekMonday t + k * msPerDay) =
      dateFnsStartOfWeekMonday t + k * msPerDay := by
  unfold dateFnsStartOfWeekMonday midnightOf
  have h : t / msPerDay * msPerDay - (jsGetDay t + 6) % 7 * msPerDay + k * msPerDay =
      (t / msPerDay - (jsGetDay t + 6) % 7 + k) * msPerDay := by ring
  have h2 : (t / msPerDay - (jsGetDay t + 6) % 7 + k) * msPerDay / msPerDay =
      t / msPerDay - (jsGetDay t + 6) % 7 + k :=
    Int.mul_ediv_cancel _ (by norm_num [msPerDay])
  rw [h, h2]

/-- C7: for a plan whose days all carry exactly `M ≥ 1` meals, the
scheduler emits exactly `2 * totalDays * M + 1` notifications, and the
final extra one is the regenerate reminder at 10:00 on the last day
(Sunday) of the Monday-start week of the current date. -/
theorem reminder_count_and_regen (planDays : List PlanDay)
    (mealTimes : List (String × String)) (tone : String) (now : Int) (M : Nat)
    (hM : 1 ≤ M) (hdays : ∀ d ∈ planDays, d.meals.length = M) :
    (generateWeeklyReminders planDays mealTimes tone now).length =
      2 * planDays.length * M + 1 ∧
    (generateWeeklyReminders planDays mealTimes tone now).getLast? =
      some { message := regenMessage
             scheduled_time := dateFnsStartOfWeekMonday now + 6 * msPerDay + 10 * msPerHour
             is_sent := false } := by
  constructor
  · have hinner : ∀ d ∈ planDays,
        (d.meals.flatMap fun meal =>
          mealNotifications tone mealTimes (dateFnsStartOfWeekMonday now) d meal).length =
          2 * M := by
      intro d hd
      have h2 := flatMap_length_of_mem
        (f := fun meal => mealNotifications tone mealTimes (dateFnsStartOfWeekMonday now) d meal)
        (l := d.meals) (k := 2) (fun m _ => rfl)
      rw [h2, hdays d hd]
    have h3 := flatMap_length_of_mem hinner
    unfold generateWeeklyReminders
    rw [List.length_append, h3]
    simp only [List.length_cons, List.length_nil]
    ring
  · unfold generateWeeklyReminders
    rw [List.getLast?_concat]

/-- C7 witness: a one-day, one-meal plan on epoch day 12 (a Tuesday)
yields three notifications, the last being the regenerate reminder. -/
theorem reminder_count_and_regen_witness :
    (generateWeeklyReminders [samplePlanDay] [] "gentle" (12 * msPerDay)).length =
      2 * ([samplePlanDay] : List PlanDay).length * 1 + 1 ∧
    (generateWeeklyReminders [samplePlanDay] [] "gentle" (12 * msPerDay)).getLast? =
      some { message := regenMessage
             scheduled_time := dateFnsStartOfWeekMonday (12 * msPerDay) + 6 * msPerDay +
               10 * msPerHour
             is_sent := false } :=
  reminder_count_and_regen [samplePlanDay] [] "gentle" (12 * msPerDay) 1
    (by decide) (by decide)

/-- C8 counterexample: the scheduler ignores `day.date`.  For a plan whose
day 1 is dated epoch day 12 (a Tuesday), with no meal-time mapping (so the
"12:00" default applies), the emitted meal reminder is anchored on the
Monday week start (day 11), not on `day.date` combined with the meal time. -/
theorem reminder_anchor_counterexample :
    ((generateWeeklyReminders [samplePlanDay] [] "gentle" (12 * msPerDay)).getD 1
        emptyNotification).scheduled_time ≠
      samplePlanDay.date * msPerDay + timeOfDayMs "12:00" := by
  decide

/-- C8 amended: for every `(day, meal)` pair of the plan the scheduler
emits a meal reminder at `weekStart + (day.day - 1) days` (the Monday-start
week of the current date, not `day.date`) combined with
`mealTimes[meal.type.toLowerCase()]` — defaulting to "12:00" when the slot
is absent — and a prep reminder exactly one hour earlier. -/
theorem reminder_times_amended (planDays : List PlanDay)
    (mealTimes : List (String × String)) (tone : String) (now : Int)
    (day : PlanDay) (meal : Meal) (hd : day ∈ planDays) (hm : meal ∈ day.meals) :
    ({ message := mealMessageFor tone meal
       scheduled_time := dateFnsStartOfWeekMonday now + ((day.day : Int) - 1) * msPerDay +
         timeOfDayMs (jsOrDefault (mealTimes.lookup (jsToLower meal.type)) "12:00")
       is_sent := false } : NotificationRow) ∈
      generateWeeklyReminders planDays mealTimes tone now ∧
    ({ message := prepMessageFor tone meal
       scheduled_time := dateFnsStartOfWeekMonday now + ((day.day : Int) - 1) * msPerDay +
         timeOfDayMs (jsOrDefault (mealTimes.lookup (jsToLower meal.type)) "12:00") - msPerHour
       is_sent := false } : NotificationRow) ∈
      generateWeeklyReminders planDays mealTimes tone now := by
  have hpair : mealNotifications tone mealTimes (dateFnsStartOfWeekMonday now) day meal =
      [{ message := prepMessageFor tone meal
         scheduled_time := dateFnsStartOfWeekMonday now + ((day.day : Int) - 1) * msPerDay +
           timeOfDayMs (jsOrDefault (mealTimes.lookup (jsToLower meal.type)) "12:00") - msPerHour
         is_sent := false },
       { message := mealMessageFor tone meal
         scheduled_time := dateFnsStartOfWeekMonday now + ((day.day : Int) - 1) * msPerDay +
           timeOfDayMs (jsOrDefault (mealTimes.lookup (jsToLower meal.type)) "12:00")
         is_sent := false }] := by
    simp only [mealNotifications]
    rw [midnight_of_weekStart_add]
  constructor
  · unfold generateWeeklyReminders
    refine List.mem_append_left _ ?_
    rw [List.mem_flatMap]
    refine ⟨day, hd, ?_⟩
    rw [List.mem_flatMap]
    exact ⟨meal, hm, by rw [hpair]; simp⟩
  · unfold generateWeeklyReminders
    refine List.mem_append_left _ ?_
    rw [List.mem_flatMap]
    refine ⟨day, hd, ?_⟩
    rw [List.mem_flatMap]
    exact ⟨meal, hm, by rw [hpair]; simp⟩

/-- C8 witness: the amended reminder-time property at a concrete one-day,
one-meal plan on epoch day 12. -/
theorem reminder_times_witness :
    ({ message := mealMessageFor "gentle" sampleMeal
       scheduled_time := dateFnsStartOfWeekMonday (12 * msPerDay) +
         ((samplePlanDay.day : Int) - 1) * msPerDay +
         timeOfDayMs (jsOrDefault (([] : List (String × String)).lookup
           (jsToLower sampleMeal.type)) "12:00")
       is_sent := false } : NotificationRow) ∈
      generateWeeklyReminders [samplePlanDay] [] "gentle" (12 * msPerDay) ∧
    ({ message := prepMessageFor "gentle" sampleMeal
       scheduled_time := dateFnsStartOfWeekMonday (12 * msPerDay) +
         ((samplePlanDay.day : Int) - 1) * msPerDay +
         timeOfDayMs (jsOrDefault (([] : List (String × String)).lookup
           (jsToLower sampleMeal.type)) "12:00") - msPerHour
       is_sent := false } : NotificationRow) ∈
      generateWeeklyReminders [samplePlanDay] [] "gentle" (12 * msPerDay) :=
  reminder_times_amended [samplePlanDay] [] "gentle" (12 * msPerDay) samplePlanDay sampleMeal
    (by decide) (by decide)

/-- One aggregation step moves the key list by one `seenInsert` step. -/
lemma map_fst_aggInsert (acc : List (String × DisplayItem)) (r : GroceryRow) :
    (aggInsert acc r).map Prod.fst =
      seenInsert (acc.map Prod.fst) (jsToLower r.item_name) := by
  by_cases hk : jsToLower r.item_name ∈ acc.map Prod.fst
  · have hany : acc.any (fun p => p.1 == jsToLower r.item_name) = true := by
      rw [List.any_eq_true]
      obtain ⟨p, hp, he⟩ := List.mem_map.mp hk
      exact ⟨p, hp, beq_iff_eq.mpr he⟩
    rw [aggInsert, if_pos hany, seenInsert, if_pos hk, List.map_map]
    apply List.map_congr_left
    intro p _
    by_cases hpk : p.1 = jsToLower r.item_name <;> simp [hpk]
  · have hany : acc.any (fun p => p.1 == jsToLower r.item_name) = false := by
      rw [List.any_eq_false]
      intro p hp hbe
      exact hk (List.mem_map.mpr ⟨p, hp, beq_iff_eq.mp hbe⟩)
    rw [aggInsert, if_neg (by simp [hany]), seenInsert, if_neg hk, List.map_append]
    rfl

/-- The key list of a whole aggregation fold is the `seenInsert` fold of
the rows' lower-cased names. -/
lemma foldl_aggInsert_map_fst (l : List GroceryRow) (acc : List (String × DisplayItem)) :
    (l.foldl aggInsert acc).map Prod.fst =
      l.foldl (fun ks r => seenInsert ks (jsToLower r.item_name)) (acc.map Prod.fst) := by
  induction l generalizing acc with
  | nil => rfl
  | cons r rs ih => simp only [List.foldl_cons, ih, map_fst_aggInsert]

/-- Membership in a `seenInsert` step. -/
lemma mem_seenInsert (k k0 : String) (ks : List String) :
    k ∈ seenInsert ks k0 ↔ k ∈ ks ∨ k = k0 := by
  by_cases h : k0 ∈ ks <;> simp only [seenInsert, if_pos, if_neg, h, ite_true, ite_false]
  · exact ⟨Or.inl, fun hh => hh.elim id (fun he => he ▸ h)⟩
  · simp

/-- Membership in a `seenInsert` fold: the start plus everything folded in. -/
lemma mem_foldl_seenInsert (l : List String) (ks : List String) (k : String) :
    k ∈ l.foldl seenInsert ks ↔ k ∈ ks ∨ k ∈ l := by
  induction l generalizing ks with
  | nil => simp
  | cons a as ih =>
    rw [List.foldl_cons, ih, mem_seenInsert]
    simp only [List.mem_cons]
    tauto

/-- `seenInsert` preserves distinctness. -/
lemma nodup_seenInsert (ks : List String) (k : String) (h : ks.Nodup) :
    (seenInsert ks k).Nodup := by
  by_cases hk : k ∈ ks
  · simpa [seenInsert, hk] using h
  · simp [seenInsert, hk, List.nodup_append, h]

/-- A `seenInsert` fold of a distinct start stays distinct. -/
lemma nodup_foldl_seenInsert (l : List String) (ks : List String) (h : ks.Nodup) :
    (l.foldl seenInsert ks).Nodup := by
  induction l generalizing ks with
  | nil => exact h
  | cons a as ih => exact ih _ (nodup_seenInsert ks a h)

/-- Every accumulator entry of the aggregation fold is keyed by the
lower-cased name of the display item it holds. -/
lemma foldl_aggInsert_key_inv (l : List GroceryRow) (acc : List (String × DisplayItem))
    (hacc : ∀ p ∈ acc, jsToLower p.2.item_name = p.1) :
    ∀ p ∈ l.foldl aggInsert acc, jsToLower p.2.item_name = p.1 := by
  induction l generalizing acc with
  | nil => exact hacc
  | cons r rs ih =>
    rw [List.foldl_cons]
    apply ih
    intro p hp
    rw [aggInsert] at hp
    by_cases hany : acc.any (fun q => q.1 == jsToLower r.item_name) = true
    · rw [if_pos hany] at hp
      obtain ⟨q, hq, he⟩ := List.mem_map.mp hp
      by_cases hqk : q.1 = jsToLower r.item_name
      · rw [if_pos hqk] at he
        rw [← he]
        exact hacc q hq
      · rw [if_neg hqk] at he
        rw [← he]
        exact hacc q hq
    · rw [if_neg hany] at hp
      rcases List.mem_append.mp hp with h1 | h2
      · exact hacc _ h1
      · rw [List.mem_singleton] at h2
        rw [h2]
        rfl

/-- C4 counterexample: `aggregate` is not permutation-invariant — swapping
the Tomato rows changes the representative casing, id and quantity order
of the merged display item. -/
theorem aggregate_order_dependent_counterexample :
    aggregate
        [{ id := "a", user_id := "u", week_start_date := 0, item_name := "Tomato",
           quantity := some "2 cups", is_purchased := false, notes := none },
         { id := "b", user_id := "u", week_start_date := 0, item_name := "tomato",
           quantity := some "1 unit", is_purchased := false, notes := none }] ≠
      aggregate
        [{ id := "b", user_id := "u", week_start_date := 0, item_name := "tomato",
           quantity := some "1 unit", is_purchased := false, notes := none },
         { id := "a", user_id := "u", week_start_date := 0, item_name := "Tomato",
           quantity := some "2 cups", is_purchased := false, notes := none }] := by
  decide

/-- C4 amended: the grouping itself is order-independent — a permutation
of the input rows yields the same number of display items and a
permutation of the same lower-cased group names — but the representative
fields and quantity order follow first-seen order, so the display lists
themselves need not be equal. -/
theorem aggregate_order_independent_amended (l l2 : List GroceryRow) (h : l.Perm l2) :
    (aggregate l).length = (aggregate l2).length ∧
    ((aggregate l).map fun d => jsToLower d.item_name).Perm
      ((aggregate l2).map fun d => jsToLower d.item_name) := by
  have hnames : ∀ m : List GroceryRow,
      ((aggregate m).map fun d => jsToLower d.item_name) =
        (m.foldl aggInsert []).map Prod.fst := by
    intro m
    rw [aggregate, List.map_map]
    apply List.map_congr_left
    intro p hp
    exact foldl_aggInsert_key_inv m [] (by simp) p hp
  have hkeys : ∀ m : List GroceryRow,
      (m.foldl aggInsert []).map Prod.fst =
        (m.map fun r => jsToLower r.item_name).foldl seenInsert [] := by
    intro m
    rw [foldl_aggInsert_map_fst, List.foldl_map]
    rfl
  have hperm : (((l.map fun r => jsToLower r.item_name).foldl seenInsert []).Perm
      ((l2.map fun r => jsToLower r.item_name).foldl seenInsert [])) := by
    refine (List.perm_ext_iff_of_nodup (nodup_foldl_seenInsert _ _ (by simp))
      (nodup_foldl_seenInsert _ _ (by simp))).mpr ?_
    intro a
    rw [mem_foldl_seenInsert, mem_foldl_seenInsert]
    have hmem := (h.map fun r => jsToLower r.item_name).mem_iff (a := a)
    tauto
  have hmain : ((aggregate l).map fun d => jsToLower d.item_name).Perm
      ((aggregate l2).map fun d => jsToLower d.item_name) := by
    rw [hnames l, hnames l2, hkeys l, hkeys l2]
    exact hperm
  refine ⟨?_, hmain⟩
  have h1 := hmain.length_eq
  rwa [List.length_map, List.length_map] at h1

/-- C4 witness: the amended order-independence at the concrete pair of
Tomato rows in swapped order. -/
theorem aggregate_order_independent_witness :
    (aggregate
        [{ id := "a", user_id := "u", week_start_date := 0, item_name := "Tomato",
           quantity := some "2 cups", is_purchased := false, notes := none },
         { id := "b", user_id := "u", week_start_date := 0, item_name := "tomato",
           quantity := some "1 unit", is_purchased := false, notes := none }]).length =
      (aggregate
        [{ id := "b", user_id := "u", week_start_date := 0, item_name := "tomato",
           quantity := some "1 unit", is_purchased := false, notes := none },
         { id := "a", user_id := "u", week_start_date := 0, item_name := "Tomato",
           quantity := some "2 cups", is_purchased := false, notes := none }]).length ∧
    ((aggregate
        [{ id := "a", user_id := "u", week_start_date := 0, item_name := "Tomato",
           quantity := some "2 cups", is_purchased := false, notes := none },
         { id := "b", user_id := "u", week_start_date := 0, item_name := "tomato",
           quantity := some "1 unit", is_purchased := false, notes := none }]).map
        fun d => jsToLower d.item_name).Perm
      ((aggregate
        [{ id := "b", user_id := "u", week_start_date := 0, item_name := "tomato",
           quantity := some "1 unit", is_purchased := false, notes := none },
         { id := "a", user_id := "u", week_start_date := 0, item_name := "Tomato",
           quantity := some "2 cups", is_purchased := false, notes := none }]).map
        fun d => jsToLower d.item_name) :=
  aggregate_order_independent_amended _ _ (by decide)

/-- Unfolding equation of the split worker on a cons in scan mode. -/
lemma splitCommaSpaceAux_cons_false (c : Char) (tail acc : List Char) :
    splitCommaSpaceAux (c :: tail) acc false =
      if c = ',' ∧ tail.head? = some ' ' then
        acc.reverse :: splitCommaSpaceAux tail [] true
      else splitCommaSpaceAux tail (c :: acc) false := rfl

/-- Unfolding equation of the split worker in skip mode. -/
lemma splitCommaSpaceAux_cons_true (c : Char) (tail acc : List Char) :
    splitCommaSpaceAux (c :: tail) acc true = splitCommaSpaceAux tail acc false := rfl

/-- Unfolding equation of the split worker on the empty list. -/
lemma splitCommaSpaceAux_nil (acc : List Char) (skip : Bool) :
    splitCommaSpaceAux [] acc skip = [acc.reverse] := by
  cases skip <;> rfl

/-- The split worker never returns an empty segment list. -/
lemma splitCommaSpaceAux_ne_nil (l : List Char) :
    ∀ (acc : List Char) (skip : Bool), splitCommaSpaceAux l acc skip ≠ [] := by
  induction l with
  | nil =>
    intro acc skip
    rw [splitCommaSpaceAux_nil]
    simp
  | cons c tail ih =>
    intro acc skip
    cases skip
    · rw [splitCommaSpaceAux_cons_false]
      by_cases h : c = ',' ∧ tail.head? = some ' '
      · rw [if_pos h]
        simp
      · rw [if_neg h]
        exact ih _ false
    · rw [splitCommaSpaceAux_cons_true]
      exact ih _ false

/-- Splitting `d ++ ", " ++ s` when `d` alone scans into a single segment:
the separator at the junction cuts exactly there. -/
lemma splitCommaSpaceAux_append (d : List Char) :
    ∀ (acc : List Char) (s : List Char),
    splitCommaSpaceAux d acc false = [acc.reverse ++ d] →
    splitCommaSpaceAux (d ++ ',' :: ' ' :: s) acc false =
      (acc.reverse ++ d) :: splitCommaSpaceAux s [] false := by
  induction d with
  | nil =>
    intro acc s _
    rw [List.nil_append, splitCommaSpaceAux_cons_false,
      if_pos ⟨rfl, rfl⟩, splitCommaSpaceAux_cons_true]
    simp
  | cons c d2 ih =>
    intro acc s h
    rw [splitCommaSpaceAux_cons_false] at h
    by_cases hcond : c = ',' ∧ d2.head? = some ' '
    · rw [if_pos hcond] at h
      have := splitCommaSpaceAux_ne_nil d2 [] true
      cases hd2 : splitCommaSpaceAux d2 [] true with
      | nil => exact absurd hd2 this
      | cons z zs =>
        rw [hd2] at h
        simp at h
    · rw [if_neg hcond] at h
      have hcond2 : ¬(c = ',' ∧ (d2 ++ ',' :: ' ' :: s).head? = some ' ') := by
        cases d2 with
        | nil =>
          simp only [List.nil_append, List.head?_cons]
          intro hc
          exact absurd hc.2 (by simp)
        | cons x xs =>
          simpa using hcond
      rw [List.cons_append, splitCommaSpaceAux_cons_false, if_neg hcond2]
      have h2 : splitCommaSpaceAux d2 (c :: acc) false = [(c :: acc).reverse ++ d2] := by
        rw [h]
        simp
      rw [ih (c :: acc) s h2]
      simp

/-- String-level junction lemma: splitting `x ++ ", " ++ s` cuts exactly
after `x` whenever `x` alone is a single segment. -/
lemma jsSplitCommaSpace_append (x s : String) (hx : jsSplitCommaSpace x = [x]) :
    jsSplitCommaSpace (x ++ ", " ++ s) = x :: jsSplitCommaSpace s := by
  have hx2 : splitCommaSpaceAux x.data [] false = [x.data] := by
    have h := congrArg (List.map String.data) hx
    rw [jsSplitCommaSpace, List.map_map,
      show (String.data ∘ fun l : List Char => (⟨l⟩ : String)) = id from rfl,
      List.map_id] at h
    simpa using h
  have hdata : (x ++ ", " ++ s).data = x.data ++ ',' :: ' ' :: s.data := by
    rw [String.data_append, String.data_append, List.append_assoc]
    rfl
  rw [jsSplitCommaSpace, hdata,
    splitCommaSpaceAux_append x.data [] s.data (by simpa using hx2)]
  rw [List.map_cons]
  rfl

/-- Joining single-segment entries and splitting again is the identity. -/
lemma jsSplit_jsJoin (es : List String) (hne : es ≠ [])
    (hsingle : ∀ e ∈ es, jsSplitCommaSpace e = [e]) :
    jsSplitCommaSpace (jsJoinCommaSpace es) = es := by
  induction es with
  | nil => exact absurd rfl hne
  | cons x rest ih =>
    cases rest with
    | nil => simpa using hsingle x (by simp)
    | cons y rest2 =>
      have hx := hsingle x (by simp)
      have hjoin : jsJoinCommaSpace (x :: y :: rest2) =
          x ++ ", " ++ jsJoinCommaSpace (y :: rest2) := rfl
      rw [hjoin, jsSplitCommaSpace_append _ _ hx,
        ih (by simp) (fun e he => hsingle e (List.mem_cons_of_mem x he))]

/-- `seenInsert` never empties a list. -/
lemma seenInsert_ne_nil (ks : List String) (k : String) (h : ks ≠ []) :
    seenInsert ks k ≠ [] := by
  by_cases hk : k ∈ ks <;> simp [seenInsert, hk, h]

/-- `seenInsert` only adds entries already checked single-segment. -/
lemma seenInsert_single (ks : List String) (k : String)
    (hks : ∀ e ∈ ks, jsSplitCommaSpace e = [e]) (hk : jsSplitCommaSpace k = [k]) :
    ∀ e ∈ seenInsert ks k, jsSplitCommaSpace e = [e] := by
  intro e he
  rw [mem_seenInsert] at he
  rcases he with h1 | h2
  · exact hks e h1
  · rw [h2]
    exact hk

/-- The duplicate branch computes exactly a first-seen-order dedup step on
the joined entry list, for single-segment entries. -/
lemma combineQuantity_spec (es : List String) (q : String) (hne : es ≠ [])
    (hsingle : ∀ e ∈ es, jsSplitCommaSpace e = [e]) :
    combineQuantity (jsJoinCommaSpace es) (some q) =
      jsJoinCommaSpace (seenInsert es q) := by
  rw [combineQuantity, jsSplit_jsJoin es hne hsingle, seenInsert]
  by_cases hq : q ∈ es
  · rw [if_pos hq, if_pos hq]
  · rw [if_neg hq, if_neg hq]

/-- Aggregating a row whose key is already the (single) accumulator key
updates that entry's quantity through the duplicate branch. -/
lemma aggInsert_hit (key : String) (d : DisplayItem) (r : GroceryRow)
    (hkeyr : jsToLower r.item_name = key) :
    aggInsert [(key, d)] r =
      [(key, { d with quantity := combineQuantity d.quantity r.quantity })] := by
  rw [aggInsert, hkeyr]
  simp

/-- A whole single-key group folds to one entry whose quantity is the
join of the first-seen-order distinct quantities. -/
lemma foldl_aggInsert_single_group (rest : List GroceryRow) :
    ∀ (key idv nmv : String) (pv : Bool) (nov : Option String) (es : List String),
    (∀ x ∈ rest, jsToLower x.item_name = key) →
    (∀ x ∈ rest, ∃ q, x.quantity = some q ∧ jsSplitCommaSpace q = [q]) →
    es ≠ [] →
    (∀ e ∈ es, jsSplitCommaSpace e = [e]) →
    rest.foldl aggInsert
        [(key, { id := idv, item_name := nmv, quantity := jsJoinCommaSpace es,
                 is_purchased := pv, notes := nov })] =
      [(key, { id := idv, item_name := nmv,
               quantity := jsJoinCommaSpace
                 (rest.foldl (fun ks x => seenInsert ks (x.quantity.getD "")) es),
               is_purchased := pv, notes := nov })] := by
  induction rest with
  | nil =>
    intro key idv nmv pv nov es _ _ _ _
    rfl
  | cons r rs ih =>
    intro key idv nmv pv nov es hkey hq hne hsingle
    obtain ⟨q, hq1, hq2⟩ := hq r (List.mem_cons_self r rs)
    have hkeyr : jsToLower r.item_name = key := hkey r (List.mem_cons_self r rs)
    rw [List.foldl_cons, aggInsert_hit key _ r hkeyr, hq1,
      combineQuantity_spec es q hne hsingle,
      ih key idv nmv pv nov (seenInsert es q)
        (fun x hx => hkey x (List.mem_cons_of_mem r hx))
        (fun x hx => hq x (List.mem_cons_of_mem r hx))
        (seenInsert_ne_nil es q hne)
        (seenInsert_single es q hsingle hq2),
      List.foldl_cons, hq1]
    simp

/-- Inserting into an empty seen-list yields a singleton. -/
lemma seenInsert_nil (k : String) : seenInsert [] k = [k] := by
  simp [seenInsert]

/-- C5 counterexample: a duplicate quantity that itself contains the
separator is re-appended — `aggregate` does not always produce the
comma-join of the distinct quantity strings of the group.  Rows with
quantities "q", "a, b", "a, b" under one name yield "q, a, b, a, b",
while the distinct first-seen quantities join to "q, a, b". -/
theorem aggregate_quantity_reappended_counterexample :
    (aggregate
      [{ id := "1", user_id := "u", week_start_date := 0, item_name := "x",
         quantity := some "q", is_purchased := false, notes := none },
       { id := "2", user_id := "u", week_start_date := 0, item_name := "x",
         quantity := some "a, b", is_purchased := false, notes := none },
       { id := "3", user_id := "u", week_start_date := 0, item_name := "x",
         quantity := some "a, b", is_purchased := false, notes := none }]).map
      (fun d => d.quantity) = ["q, a, b, a, b"] ∧
    jsJoinCommaSpace (dedupFirstSeen
      (([{ id := "1", user_id := "u", week_start_date := 0, item_name := "x",
           quantity := some "q", is_purchased := false, notes := none },
         { id := "2", user_id := "u", week_start_date := 0, item_name := "x",
           quantity := some "a, b", is_purchased := false, notes := none },
         { id := "3", user_id := "u", week_start_date := 0, item_name := "x",
           quantity := some "a, b", is_purchased := false, notes := none }] :
            List GroceryRow).map fun x => x.quantity.getD "")) = "q, a, b" ∧
    ("q, a, b, a, b" : String) ≠ "q, a, b" := by
  refine ⟨by decide, by decide, by decide⟩

/-- C5 amended: for a group of rows sharing one lower-cased name whose
quantities are all present, non-empty and separator-free, `aggregate`
yields a single display item carrying the first row's `id`, `item_name`,
`is_purchased` and `notes`, with quantity the comma-join of the distinct
quantity strings in first-seen order (the Tomato/tomato scenario is the
witness instance). -/
theorem aggregate_group_representative_amended (r : GroceryRow) (rest : List GroceryRow)
    (hkey : ∀ x ∈ rest, jsToLower x.item_name = jsToLower r.item_name)
    (hq : ∀ x ∈ r :: rest,
      ∃ q, x.quantity = some q ∧ q ≠ "" ∧ jsSplitCommaSpace q = [q]) :
    aggregate (r :: rest) =
      [{ id := r.id, item_name := r.item_name,
         quantity := jsJoinCommaSpace
           (dedupFirstSeen ((r :: rest).map fun x => x.quantity.getD "")),
         is_purchased := r.is_purchased, notes := r.notes }] := by
  obtain ⟨q0, hq0, hq0ne, hq0s⟩ := hq r (List.mem_cons_self r rest)
  have h1 : aggInsert [] r = [(jsToLower r.item_name, displayOfRow r)] := rfl
  have h2 : displayOfRow r =
      { id := r.id, item_name := r.item_name, quantity := jsJoinCommaSpace [q0],
        is_purchased := r.is_purchased, notes := r.notes } := by
    simp [displayOfRow, hq0, jsOrDefault, hq0ne, jsJoinCommaSpace]
  have h3 : dedupFirstSeen ((r :: rest).map fun x => x.quantity.getD "") =
      rest.foldl (fun ks x => seenInsert ks (x.quantity.getD "")) [q0] := by
    rw [dedupFirstSeen, List.map_cons, List.foldl_cons, hq0]
    simp only [Option.getD_some]
    rw [seenInsert_nil, List.foldl_map]
  rw [aggregate, List.foldl_cons, h1, h2,
    foldl_aggInsert_single_group rest (jsToLower r.item_name) r.id r.item_name
      r.is_purchased r.notes [q0] hkey
      (fun x hx => (hq x (List.mem_cons_of_mem r hx)).elim fun q hh => ⟨q, hh.1, hh.2.2⟩)
      (by simp)
      (by intro e he; rw [List.mem_singleton] at he; rw [he]; exact hq0s),
    h3]
  rfl

/-- C5 witness: the amended group-representative property at the concrete
Tomato/tomato scenario, whose combined quantity is "2 cups, 1 unit". -/
theorem aggregate_group_representative_witness :
    aggregate
        [{ id := "a", user_id := "u", week_start_date := 0, item_name := "Tomato",
           quantity := some "2 cups", is_purchased := false, notes := none },
         { id := "b", user_id := "u", week_start_date := 0, item_name := "tomato",
           quantity := some "1 unit", is_purchased := false, notes := none }] =
      [{ id := "a", item_name := "Tomato",
         quantity := jsJoinCommaSpace (dedupFirstSeen
           (([{ id := "a", user_id := "u", week_start_date := 0, item_name := "Tomato",
                quantity := some "2 cups", is_purchased := false, notes := none },
              { id := "b", user_id := "u", week_start_date := 0, item_name := "tomato",
                quantity := some "1 unit", is_purchased := false, notes := none }] :
                 List GroceryRow).map fun x => x.quantity.getD "")),
         is_purchased := false, notes := none }] ∧
    jsJoinCommaSpace (dedupFirstSeen
      (([{ id := "a", user_id := "u", week_start_date := 0, item_name := "Tomato",
           quantity := some "2 cups", is_purchased := false, notes := none },
         { id := "b", user_id := "u", week_start_date := 0, item_name := "tomato",
           quantity := some "1 unit", is_purchased := false, notes := none }] :
            List GroceryRow).map fun x => x.quantity.getD "")) = "2 cups, 1 unit" :=
  ⟨aggregate_group_representative_amended _ _ (by decide) (by decide), by decide⟩

/-- C10: the "1 unit" default applies only to the first row of a group: a
later duplicate row's quantity is appended verbatim — a missing quantity
on a duplicate contributes an empty segment ("q1, "), never "1 unit",
while a present distinct quantity is appended as-is; and a group whose
first row has no quantity displays "1 unit". -/
theorem later_duplicate_quantity_verbatim (r1 r2 : GroceryRow) (q1 : String)
    (hkey : jsToLower r2.item_name = jsToLower r1.item_name)
    (h1 : r1.quantity = some q1) (h1ne : q1 ≠ "")
    (h1s : jsSplitCommaSpace q1 = [q1]) :
    (r2.quantity = none →
      aggregate [r1, r2] =
        [{ id := r1.id, item_name := r1.item_name, quantity := q1 ++ ", ",
           is_purchased := r1.is_purchased, notes := r1.notes }]) ∧
    (∀ q2, r2.quantity = some q2 → q2 ≠ q1 →
      aggregate [r1, r2] =
        [{ id := r1.id, item_name := r1.item_name, quantity := q1 ++ ", " ++ q2,
           is_purchased := r1.is_purchased, notes := r1.notes }]) ∧
    (∀ r : GroceryRow, r.quantity = none →
      aggregate [r] =
        [{ id := r.id, item_name := r.item_name, quantity := "1 unit",
           is_purchased := r.is_purchased, notes := r.notes }]) := by
  have hd1 : aggInsert [] r1 = [(jsToLower r1.item_name, displayOfRow r1)] := rfl
  have hq1d : displayOfRow r1 =
      { id := r1.id, item_name := r1.item_name, quantity := q1,
        is_purchased := r1.is_purchased, notes := r1.notes } := by
    simp [displayOfRow, h1, jsOrDefault, h1ne]
  refine ⟨?_, ?_, ?_⟩
  · intro h2
    rw [aggregate, List.foldl_cons, hd1, List.foldl_cons,
      aggInsert_hit _ _ _ hkey, hq1d, h2]
    have hc : combineQuantity q1 none = q1 ++ ", " := by
      rw [combineQuantity, h1s]
      show (q1 ++ ", ") ++ "" = q1 ++ ", "
      exact String.append_empty _
    simp only [hc]
    rfl
  · intro q2 h2 hne2
    rw [aggregate, List.foldl_cons, hd1, List.foldl_cons,
      aggInsert_hit _ _ _ hkey, hq1d, h2]
    have hc : combineQuantity q1 (some q2) = q1 ++ ", " ++ q2 := by
      rw [combineQuantity, h1s, if_neg (by simp [hne2])]
      rfl
    simp only [hc]
    rfl
  · intro r hr
    rw [aggregate]
    simp [aggInsert, displayOfRow, hr, jsOrDefault]

/-- C10 witness: a Milk row with "2 cups" followed by a milk row with no
quantity collapses to "2 cups, " (not "2 cups, 1 unit"), a distinct "1 l"
is appended verbatim, and a lone row with no quantity shows "1 unit". -/
theorem later_duplicate_quantity_witness :
    (({ id := "2", user_id := "u", week_start_date := 0, item_name := "milk",
        quantity := none, is_purchased := false, notes := none } : GroceryRow).quantity =
          none →
      aggregate
        [{ id := "1", user_id := "u", week_start_date := 0, item_name := "Milk",
           quantity := some "2 cups", is_purchased := false, notes := none },
         { id := "2", user_id := "u", week_start_date := 0, item_name := "milk",
           quantity := none, is_purchased := false, notes := none }] =
        [{ id := "1", item_name := "Milk", quantity := "2 cups" ++ ", ",
           is_purchased := false, notes := none }]) ∧
    (∀ q2, ({ id := "2", user_id := "u", week_start_date := 0, item_name := "milk",
              quantity := none, is_purchased := false, notes := none } :
                GroceryRow).quantity = some q2 → q2 ≠ "2 cups" →
      aggregate
        [{ id := "1", user_id := "u", week_start_date := 0, item_name := "Milk",
           quantity := some "2 cups", is_purchased := false, notes := none },
         { id := "2", user_id := "u", week_start_date := 0, item_name := "milk",
           quantity := none, is_purchased := false, notes := none }] =
        [{ id := "1", item_name := "Milk", quantity := "2 cups" ++ ", " ++ q2,
           is_purchased := false, notes := none }]) ∧
    (∀ r : GroceryRow, r.quantity = none →
      aggregate [r] =
        [{ id := r.id, item_name := r.item_name, quantity := "1 unit",
           is_purchased := r.is_purchased, notes := r.notes }]) :=
  later_duplicate_quantity_verbatim
    { id := "1", user_id := "u", week_start_date := 0, item_name := "Milk",
      quantity := some "2 cups", is_purchased := false, notes := none }
    { id := "2", user_id := "u", week_start_date := 0, item_name := "milk",
      quantity := none, is_purchased := false, notes := none }
    "2 cups" (by decide) (by decide) (by decide) (by decide)
